import Mathlib

/-!
Verification of the rushstack operation-orchestration slice: the `Git`
interrogation helpers (src/unnamed/part_000), the `GlobalScriptAction`
custom-command class (src/apps/rush-lib/src/cli/scriptActions/
GlobalScriptAction.ts), and the spec's Scheduler/Executor concurrency
discipline.  Effectful TypeScript is embedded by explicit state passing:
each external boundary (filesystem, spawned process, git probe) is an
input value describing what that boundary would return.
-/

namespace Rushstack

/-- Outcome of child_process.spawnSync: an exit status (a TS number,
modelled as Int) and the captured stdout text. -/
structure SpawnSyncReturns where
  status : Int
  stdout : String
deriving DecidableEq, Repr

/-- The static mutable fields of the Git class: Git._hasGit and
Git._gitPath, both initially undefined. -/
structure GitState where
  hasGit : Option Bool
  gitPath : Option String
deriving DecidableEq, Repr

/-- The initial static state of the Git class (both fields undefined). -/
def GitState.initial : GitState := ⟨none, none⟩

/-- JavaScript truthiness of a value of type string or undefined:
undefined and the empty string are falsy. -/
def truthyStr : Option String → Bool
  | none => false
  | some s => s ≠ ""

lemma truthyStr_none : truthyStr none = false := rfl

lemma truthyStr_some (x : String) : truthyStr (some x) = !decide (x = "") := by
  simp [truthyStr]

/-- Git.getGitPath.  The probe argument is what spawning where/which git
would return if the probe is run.  Result: the returned value
(Git._gitPath after the call), the new static state, and whether the
external probe was actually spawned during this call.  Note the source
only assigns Git._hasGit inside the branch where the probe exited
with status 0. -/
def getGitPath (probe : SpawnSyncReturns) (s : GitState) :
    Option String × GitState × Bool :=
  if s.hasGit = none then
    if probe.status = 0 then
      let s' : GitState := ⟨some (probe.stdout ≠ ""), some probe.stdout⟩
      (s'.gitPath, s', true)
    else
      (s.gitPath, s, true)
  else
    (s.gitPath, s, false)

/-- Repository info as returned by the git-repo-info module: only the
sha field is consulted by this code. -/
structure GitRepoInfo where
  sha : String
deriving DecidableEq, Repr

/-- Git.detectIfGitIsSupported.  The repoInfo argument is the outcome
that calling gitInfo() would produce (an exception or an info record).
Result: the boolean answer, the new static state, and whether gitInfo()
was actually invoked. -/
def detectIfGitIsSupported (probe : SpawnSyncReturns)
    (repoInfo : Except Unit GitRepoInfo) (s : GitState) :
    Bool × GitState × Bool :=
  let r := getGitPath probe s
  if truthyStr r.1 then
    match repoInfo with
    | .ok info => (info.sha ≠ "", r.2.1, true)
    | .error _ => (false, r.2.1, true)
  else
    (false, r.2.1, false)

/-- The IResultOrError interface: two optional fields. -/
structure ResultOrError where
  error : Option String
  result : Option String
deriving DecidableEq, Repr

/-- The external outcomes Git.tryGetGitEmail depends on: the git probe,
and what executeCommandAndCaptureOutput for git config user.email would
produce (an exception message or the captured stdout). -/
structure GitEmailEnv where
  probe : SpawnSyncReturns
  execGitConfig : Except String String
deriving Repr

/-- JS String.prototype.trim as the source applies it to command
output: strips leading and trailing whitespace characters. -/
def jsTrim (s : String) : String :=
  ⟨((s.data.dropWhile Char.isWhitespace).reverse.dropWhile
      Char.isWhitespace).reverse⟩

/-- Git.tryGetGitEmail: error when git is absent from the path (falsy
getGitPath result) or when executing the command throws; otherwise the
trimmed captured output. -/
def tryGetGitEmail (env : GitEmailEnv) (s : GitState) :
    ResultOrError × GitState :=
  let r := getGitPath env.probe s
  if truthyStr r.1 then
    match env.execGitConfig with
    | .ok out => (⟨none, some (jsTrim out)⟩, r.2.1)
    | .error e => (⟨some e, none⟩, r.2.1)
  else
    (⟨some "Git is not present on the path", none⟩, r.2.1)

/-- How Git.getGitEmail ends: returning an email string, or throwing
AlreadyReportedError after printing a diagnostic. -/
inductive GitEmailOutcome where
  | returned (email : String)
  | alreadyReported
deriving DecidableEq, Repr

/-- Git.getGitEmail: throws AlreadyReportedError when tryGetGitEmail
reports an error or when the result field is falsy (undefined or empty
string); otherwise returns the result. -/
def getGitEmail (env : GitEmailEnv) (s : GitState) :
    GitEmailOutcome × GitState :=
  let r := tryGetGitEmail env s
  if r.1.error.isSome then
    (.alreadyReported, r.2)
  else if truthyStr r.1.result = false then
    (.alreadyReported, r.2)
  else
    match r.1.result with
    | some v => (.returned v, r.2)
    | none => (.alreadyReported, r.2)

/-- path.join for the two-segment joins this code performs. -/
def pathJoin (a b : String) : String := a ++ "/" ++ b

/-- The name field of a loaded package.json (the only field this code
reads). -/
structure PackageJson where
  name : String
deriving DecidableEq, Repr

/-- External boundaries consulted by the GlobalScriptAction constructor
and by runAsync: the filesystem, JsonFile.load, Autoinstaller.validateName,
and the rush configuration folders. -/
structure GlobalScriptEnv where
  fsExists : String → Bool
  loadPackageJson : String → Except String PackageJson
  validateName : String → Except String Unit
  commonAutoinstallersFolder : String

/-- The fields a successfully constructed GlobalScriptAction holds. -/
structure GlobalScriptAction where
  actionName : String
  shellCommand : String
  autoinstallerName : String
  autoinstallerFullPath : String
deriving DecidableEq, Repr

/-- The GlobalScriptAction constructor.  autoinstallerName is a
TS string-or-undefined; `options.autoinstallerName || ""` collapses
undefined and the empty string to the empty string.  With a non-empty
name it validates the name, then checks that the autoinstaller folder
exists, that its package.json exists, and that the package name field
matches; any failed check throws an Error (returned here as .error)
before anything else runs.  The constructor spawns no shell command. -/
def mkGlobalScriptAction (env : GlobalScriptEnv) (actionName : String)
    (shellCommand : String) (autoinstallerName : Option String) :
    Except String GlobalScriptAction :=
  let name := autoinstallerName.getD ""
  if name = "" then
    .ok ⟨actionName, shellCommand, "", ""⟩
  else
    match env.validateName name with
    | .error e => .error e
    | .ok _ =>
      let fullPath := pathJoin env.commonAutoinstallersFolder name
      if env.fsExists fullPath = false then
        .error ("autoinstallerName path does not exist: " ++ fullPath)
      else
        let packageJsonPath := pathJoin fullPath "package.json"
        if env.fsExists packageJsonPath = false then
          .error ("package.json file was not found: " ++ packageJsonPath)
        else
          match env.loadPackageJson packageJsonPath with
          | .error e => .error e
          | .ok packageJson =>
            if packageJson.name ≠ name then
              .error ("package.json name field is not " ++ name ++ ": " ++
                packageJsonPath)
            else
              .ok ⟨actionName, shellCommand, name, fullPath⟩

/-- The observable side effects runAsync performs, in order: preparing
the autoinstaller (Autoinstaller.prepareAsync) and invoking
Utilities.executeLifecycleCommand.  The lifecycle command receives a
single command string (not a structured argument list) plus the
environmentPathOptions fields. -/
inductive RunEvent where
  | prepareAutoinstaller (name : String)
  | executeLifecycleCommand (command : String) (includeRepoBin : Bool)
      (additionalPathFolders : List String)
deriving DecidableEq, Repr

/-- How runAsync ends: a normal return or throwing AlreadyReportedError. -/
inductive RunOutcome where
  | normal
  | alreadyReportedError
deriving DecidableEq, Repr

/-- What one invocation of runAsync does: its ordered event trace, the
value assigned to process.exitCode, and how it ends. -/
structure RunResult where
  events : List RunEvent
  processExitCode : Int
  outcome : RunOutcome
deriving DecidableEq, Repr

/-- GlobalScriptAction.runAsync.  customParameterValues is the list the
custom parameters append to (collected from the external parameter
objects); exitCode is what executeLifecycleCommand returns (a TS
number, modelled as Int). -/
def runAsync (a : GlobalScriptAction) (customParameterValues : List String)
    (exitCode : Int) : RunResult :=
  let additionalPathFolders : List String :=
    if a.autoinstallerName ≠ "" then
      [pathJoin (pathJoin a.autoinstallerFullPath "node_modules") ".bin"]
    else []
  let prepEvents : List RunEvent :=
    if a.autoinstallerName ≠ "" then
      [.prepareAutoinstaller a.autoinstallerName]
    else []
  let shellCommand : String :=
    if customParameterValues.length > 0 then
      a.shellCommand ++ " " ++ String.intercalate " " customParameterValues
    else
      a.shellCommand
  { events := prepEvents ++
      [.executeLifecycleCommand shellCommand true additionalPathFolders],
    processExitCode := exitCode,
    outcome := if exitCode > 0 then .alreadyReportedError else .normal }

/-- The command strings runAsync passed to the process-invocation
boundary, in order. -/
def executedCommands (r : RunResult) : List String :=
  r.events.filterMap fun e =>
    match e with
    | .executeLifecycleCommand c _ _ => some c
    | _ => none

/-- Modelled from the spec: the per-Operation state machine of the
Scheduler/Executor (spec section 4.4), whose source is not under src/.
PENDING, READY, EXECUTING, CACHE_HIT, SUCCESS, FAILURE, SKIPPED. -/
inductive OpStatus where
  | pending
  | ready
  | executing
  | cacheHit
  | success
  | failure
  | skipped
deriving DecidableEq, Repr

/-- Modelled from the spec: states counting as completed successfully
for downstream readiness (SUCCESS and CACHE_HIT are equivalent). -/
def completedSuccessfully : OpStatus → Bool
  | .success => true
  | .cacheHit => true
  | _ => false

/-- Modelled from the spec: the Operation Graph seen by the scheduler,
whose source is not under src/ — operations are indexed 0..numOps-1 and
each has a list of predecessor indices. -/
structure OperationGraph where
  numOps : Nat
  preds : Nat → List Nat

/-- Number of operations currently in the EXECUTING state. -/
def countExecuting : List OpStatus → Nat
  | [] => 0
  | s :: rest => (if s = OpStatus.executing then 1 else 0) + countExecuting rest

/-- Modelled from the spec: one scheduler transition of the
Scheduler/Executor (spec sections 4.4 and 5), whose source is not under
src/.  The run state is the list of per-operation statuses.  An
operation becomes READY when every predecessor completed successfully;
dispatching to EXECUTING requires a free worker slot (strictly fewer
than maxConcurrency operations EXECUTING); a READY operation may instead
be restored from cache; an EXECUTING operation terminates in SUCCESS or
FAILURE; an operation with a FAILURE or SKIPPED predecessor is SKIPPED
without executing. -/
inductive SchedStep (g : OperationGraph) (maxConcurrency : Nat) :
    List OpStatus → List OpStatus → Prop where
  | markReady (l : List OpStatus) (i : Nat)
      (hi : l.get? i = some .pending)
      (hp : ∀ j ∈ g.preds i, ∃ s, l.get? j = some s ∧
        completedSuccessfully s = true) :
      SchedStep g maxConcurrency l (l.set i .ready)
  | dispatch (l : List OpStatus) (i : Nat)
      (hi : l.get? i = some .ready)
      (hc : countExecuting l < maxConcurrency) :
      SchedStep g maxConcurrency l (l.set i .executing)
  | cacheRestore (l : List OpStatus) (i : Nat)
      (hi : l.get? i = some .ready) :
      SchedStep g maxConcurrency l (l.set i .cacheHit)
  | completeSuccess (l : List OpStatus) (i : Nat)
      (hi : l.get? i = some .executing) :
      SchedStep g maxConcurrency l (l.set i .success)
  | completeFailure (l : List OpStatus) (i : Nat)
      (hi : l.get? i = some .executing) :
      SchedStep g maxConcurrency l (l.set i .failure)
  | skip (l : List OpStatus) (i : Nat)
      (hi : l.get? i = some .pending ∨ l.get? i = some .ready)
      (hp : ∃ j ∈ g.preds i, l.get? j = some .failure ∨
        l.get? j = some .skipped) :
      SchedStep g maxConcurrency l (l.set i .skipped)

/-- Modelled from the spec: a run starts with every operation PENDING. -/
def initialRunState (g : OperationGraph) : List OpStatus :=
  List.replicate g.numOps .pending

/-- A state is reachable in a run when a finite sequence of scheduler
transitions leads to it from the initial all-PENDING state. -/
def ReachableRunState (g : OperationGraph) (maxConcurrency : Nat)
    (l : List OpStatus) : Prop :=
  Relation.ReflTransGen (SchedStep g maxConcurrency) (initialRunState g) l

lemma countExecuting_set_le_succ (l : List OpStatus) (i : Nat) (v : OpStatus) :
    countExecuting (l.set i v) ≤ countExecuting l + 1 := by
  induction l generalizing i with
  | nil => simp [List.set, countExecuting]
  | cons a rest ih =>
    cases i with
    | zero =>
      simp only [List.set, countExecuting]
      have : (if v = OpStatus.executing then 1 else 0) ≤
          (if a = OpStatus.executing then 1 else 0) + 1 := by
        split <;> split <;> omega
      omega
    | succ n =>
      simp only [List.set, countExecuting]
      have := ih n
      omega

lemma countExecuting_set_le_of_ne (l : List OpStatus) (i : Nat) (v : OpStatus)
    (hv : v ≠ OpStatus.executing) :
    countExecuting (l.set i v) ≤ countExecuting l := by
  induction l generalizing i with
  | nil => simp [List.set, countExecuting]
  | cons a rest ih =>
    cases i with
    | zero =>
      simp only [List.set, countExecuting]
      have : (if v = OpStatus.executing then 1 else 0) = 0 := by
        simp [hv]
      omega
    | succ n =>
      simp only [List.set, countExecuting]
      have := ih n
      omega

lemma countExecuting_replicate_pending (n : Nat) :
    countExecuting (List.replicate n OpStatus.pending) = 0 := by
  induction n with
  | zero => simp [countExecuting]
  | succ k ih => simpa [List.replicate, countExecuting] using ih

lemma countExecuting_le_of_step (g : OperationGraph) (maxConcurrency : Nat)
    (l l' : List OpStatus) (h : SchedStep g maxConcurrency l l')
    (hl : countExecuting l ≤ maxConcurrency) :
    countExecuting l' ≤ maxConcurrency := by
  cases h with
  | markReady i hi hp =>
    have := countExecuting_set_le_of_ne l i .ready (by decide)
    omega
  | dispatch i hi hc =>
    have := countExecuting_set_le_succ l i .executing
    omega
  | cacheRestore i hi =>
    have := countExecuting_set_le_of_ne l i .cacheHit (by decide)
    omega
  | completeSuccess i hi =>
    have := countExecuting_set_le_of_ne l i .success (by decide)
    omega
  | completeFailure i hi =>
    have := countExecuting_set_le_of_ne l i .failure (by decide)
    omega
  | skip i hi hp =>
    have := countExecuting_set_le_of_ne l i .skipped (by decide)
    omega

/-- Claim C1, counterexample: runAsync with a (TS number) exit code of -1
sets process.exitCode to the non-zero value -1 yet returns normally,
because the source throws only when exitCode > 0 — refuting that runAsync
fails if and only if the exit code is non-zero. -/
theorem runAsync_nonzero_exit_no_throw_cex :
    (runAsync ⟨"custom-cmd", "echo ok", "", ""⟩ [] (-1)).processExitCode = -1 ∧
    (-1 : Int) ≠ 0 ∧
    (runAsync ⟨"custom-cmd", "echo ok", "", ""⟩ [] (-1)).outcome =
      RunOutcome.normal := by
  decide

/-- Claim C1, amended: runAsync sets process.exitCode to the lifecycle
command exit code, and it throws AlreadyReportedError if and only if
that exit code is strictly positive (so with a zero — or negative —
exit code it returns normally). -/
theorem runAsync_exit_code_spec (a : GlobalScriptAction)
    (customParameterValues : List String) (exitCode : Int) :
    (runAsync a customParameterValues exitCode).processExitCode = exitCode ∧
    ((runAsync a customParameterValues exitCode).outcome =
      RunOutcome.alreadyReportedError ↔ 0 < exitCode) := by
  refine ⟨rfl, ?_⟩
  by_cases h : 0 < exitCode
  · simp [runAsync, h]
  · simp [runAsync, h]

/-- Claim C1 witness: the amended statement evaluated at exit code 1. -/
theorem runAsync_exit_code_spec_witness :
    (runAsync ⟨"custom-cmd", "echo ok", "", ""⟩ [] 1).processExitCode = 1 ∧
    ((runAsync ⟨"custom-cmd", "echo ok", "", ""⟩ [] 1).outcome =
      RunOutcome.alreadyReportedError ↔ 0 < (1 : Int)) :=
  runAsync_exit_code_spec ⟨"custom-cmd", "echo ok", "", ""⟩ [] 1

/-- Claim C2: for a non-empty autoinstallerName, construction throws an
Error (and no shell command runs — the constructor performs no
executeLifecycleCommand at all) whenever the autoinstaller folder does
not exist, or its package.json does not exist, or the loaded
package.json name field differs from the autoinstallerName; and
construction succeeds only when all three checks pass. -/
theorem mkGlobalScriptAction_checks (env : GlobalScriptEnv)
    (actionName shellCommand name : String) (hname : name ≠ "") :
    ((env.fsExists (pathJoin env.commonAutoinstallersFolder name) = false ∨
      env.fsExists (pathJoin (pathJoin env.commonAutoinstallersFolder name)
        "package.json") = false ∨
      (∃ pj, env.loadPackageJson (pathJoin
          (pathJoin env.commonAutoinstallersFolder name) "package.json") =
          Except.ok pj ∧ pj.name ≠ name)) →
      ∃ e, mkGlobalScriptAction env actionName shellCommand (some name) =
        Except.error e) ∧
    (∀ a, mkGlobalScriptAction env actionName shellCommand (some name) =
        Except.ok a →
      env.fsExists (pathJoin env.commonAutoinstallersFolder name) = true ∧
      env.fsExists (pathJoin (pathJoin env.commonAutoinstallersFolder name)
        "package.json") = true ∧
      ∃ pj, env.loadPackageJson (pathJoin
          (pathJoin env.commonAutoinstallersFolder name) "package.json") =
          Except.ok pj ∧ pj.name = name) := by
  simp only [mkGlobalScriptAction, Option.getD, if_neg hname]
  constructor
  · intro hbad
    split
    next e heq => exact ⟨e, rfl⟩
    next u heq =>
      split
      next h1 => exact ⟨_, rfl⟩
      next h1 =>
        split
        next h2 => exact ⟨_, rfl⟩
        next h2 =>
          split
          next e heq2 => exact ⟨e, rfl⟩
          next pj heq2 =>
            split
            next h3 => exact ⟨_, rfl⟩
            next h3 =>
              exfalso
              rcases hbad with hb | hb | ⟨pj2, hpj2, hne⟩
              · exact h1 hb
              · exact h2 hb
              · rw [heq2] at hpj2
                cases hpj2
                exact h3 hne
  · intro a ha
    split at ha
    next e heq => cases ha
    next u heq =>
      split at ha
      next h1 => cases ha
      next h1 =>
        split at ha
        next h2 => cases ha
        next h2 =>
          split at ha
          next e heq2 => cases ha
          next pj heq2 =>
            split at ha
            next h3 => cases ha
            next h3 =>
              refine ⟨?_, ?_, pj, heq2, not_not.mp h3⟩
              · cases hfe : env.fsExists (pathJoin
                    env.commonAutoinstallersFolder name)
                · exact absurd hfe h1
                · rfl
              · cases hfe : env.fsExists (pathJoin
                    (pathJoin env.commonAutoinstallersFolder name)
                    "package.json")
                · exact absurd hfe h2
                · rfl

/-- Claim C2 witness: the constructor checks evaluated for a concrete
environment in which all three checks pass. -/
theorem mkGlobalScriptAction_checks_witness :
    ("my-task" : String) ≠ "" ∧
    ((true : Bool) = true ∧ (true : Bool) = true ∧
      ∃ pj, (Except.ok ⟨"my-task"⟩ : Except String PackageJson) =
        Except.ok pj ∧ pj.name = "my-task") :=
  ⟨by decide,
    (mkGlobalScriptAction_checks
      ⟨fun _ => true, fun _ => Except.ok ⟨"my-task"⟩, fun _ => Except.ok (),
        "common/autoinstallers"⟩ "do-job" "echo ok" "my-task" (by decide)).2
      ⟨"do-job", "echo ok", "my-task", "common/autoinstallers/my-task"⟩ rfl⟩

/-- Claim C3: with a non-empty autoinstallerName, runAsync prepares the
autoinstaller strictly before the lifecycle command runs, and the
command receives exactly one additionalPathFolders entry — the
autoinstaller folder's node_modules/.bin path; with an empty
autoinstallerName the command receives an empty additionalPathFolders
list (and nothing is prepared). -/
theorem runAsync_prepare_and_path_folders (a : GlobalScriptAction)
    (customParameterValues : List String) (exitCode : Int) :
    (a.autoinstallerName ≠ "" →
      ∃ cmd, (runAsync a customParameterValues exitCode).events =
        [RunEvent.prepareAutoinstaller a.autoinstallerName,
         RunEvent.executeLifecycleCommand cmd true
           [pathJoin (pathJoin a.autoinstallerFullPath "node_modules")
             ".bin"]]) ∧
    (a.autoinstallerName = "" →
      ∃ cmd, (runAsync a customParameterValues exitCode).events =
        [RunEvent.executeLifecycleCommand cmd true []]) := by
  by_cases h : a.autoinstallerName = ""
  · exact ⟨fun hne => absurd h hne,
      fun _ => ⟨if customParameterValues.length > 0 then
          a.shellCommand ++ " " ++
            String.intercalate " " customParameterValues
        else a.shellCommand, by simp [runAsync, h]⟩⟩
  · exact ⟨fun _ => ⟨if customParameterValues.length > 0 then
          a.shellCommand ++ " " ++
            String.intercalate " " customParameterValues
        else a.shellCommand, by simp [runAsync, h]⟩,
      fun he => absurd he h⟩

/-- Claim C3 witness: the autoinstaller branch evaluated for a concrete
action with autoinstallerName "my-task". -/
theorem runAsync_prepare_and_path_folders_witness :
    ("my-task" : String) ≠ "" ∧
    ∃ cmd, (runAsync ⟨"do-job", "echo ok", "my-task",
        "common/autoinstallers/my-task"⟩ [] 0).events =
      [RunEvent.prepareAutoinstaller "my-task",
       RunEvent.executeLifecycleCommand cmd true
         [pathJoin (pathJoin "common/autoinstallers/my-task" "node_modules")
           ".bin"]] :=
  ⟨by decide,
    (runAsync_prepare_and_path_folders ⟨"do-job", "echo ok", "my-task",
      "common/autoinstallers/my-task"⟩ [] 0).1 (by decide)⟩

/-- Claim C4: the command string handed to executeLifecycleCommand is
the configured shellCommand when the collected custom parameter values
are empty, and otherwise shellCommand, one space, and the values joined
by single spaces; it is passed as one flat string (a single command
argument at the process-invocation boundary), not a structured argument
list. -/
theorem runAsync_command_string (a : GlobalScriptAction)
    (customParameterValues : List String) (exitCode : Int) :
    executedCommands (runAsync a customParameterValues exitCode) =
      [if customParameterValues.isEmpty then a.shellCommand
       else a.shellCommand ++ " " ++
         String.intercalate " " customParameterValues] := by
  cases customParameterValues with
  | nil => by_cases h : a.autoinstallerName = "" <;>
      simp [runAsync, executedCommands, h]
  | cons p rest => by_cases h : a.autoinstallerName = "" <;>
      simp [runAsync, executedCommands, h]

/-- Claim C5, counterexample: starting from the initial static state,
a first call whose probe exits with status 1 runs the probe and caches
nothing (Git._hasGit stays undefined), so a second call runs the probe
again — two probes, not at most one — and the two calls return
different values (undefined, then the new probe's stdout). -/
theorem getGitPath_reprobes_cex :
    (getGitPath ⟨1, ""⟩ GitState.initial).2.2 = true ∧
    (getGitPath ⟨0, "/usr/bin/git"⟩
      (getGitPath ⟨1, ""⟩ GitState.initial).2.1).2.2 = true ∧
    (getGitPath ⟨1, ""⟩ GitState.initial).1 ≠
      (getGitPath ⟨0, "/usr/bin/git"⟩
        (getGitPath ⟨1, ""⟩ GitState.initial).2.1).1 := by
  decide

/-- Claim C5, amended: the lookup is cached only once a probe exits
with status 0: after such a call, every later call returns the cached
value without re-running the probe and leaves the state unchanged;
after a call whose probe exits non-zero, nothing was cached and the
next call runs the probe again. -/
theorem getGitPath_memoization (probe probeNext : SpawnSyncReturns)
    (s : GitState) (hs : s.hasGit = none) :
    (probe.status = 0 →
      getGitPath probeNext (getGitPath probe s).2.1 =
        ((getGitPath probe s).1, (getGitPath probe s).2.1, false)) ∧
    (probe.status ≠ 0 →
      (getGitPath probe s).2.1 = s ∧
      (getGitPath probeNext (getGitPath probe s).2.1).2.2 = true) := by
  constructor
  · intro h0
    simp [getGitPath, hs, h0]
  · intro h0
    simp only [getGitPath, hs, if_neg h0, if_pos rfl]
    refine ⟨rfl, ?_⟩
    by_cases h1 : probeNext.status = 0 <;> simp [hs, h1]

/-- Claim C5 witness: the amended statement evaluated at a successful
probe followed by a second call, from the initial state. -/
theorem getGitPath_memoization_witness :
    GitState.initial.hasGit = none ∧
    getGitPath ⟨0, "elsewhere"⟩
        (getGitPath ⟨0, "/usr/bin/git"⟩ GitState.initial).2.1 =
      ((getGitPath ⟨0, "/usr/bin/git"⟩ GitState.initial).1,
       (getGitPath ⟨0, "/usr/bin/git"⟩ GitState.initial).2.1, false) :=
  ⟨rfl,
    (getGitPath_memoization ⟨0, "/usr/bin/git"⟩ ⟨0, "elsewhere"⟩
      GitState.initial rfl).1 rfl⟩

/-- Claim C6: detectIfGitIsSupported is total (it always returns a
boolean): it returns false when the git path lookup yields no (truthy)
binary path, false when reading the repository info throws, and true
exactly when a truthy git path is found and the repository info yields
a non-empty sha. -/
theorem detectIfGitIsSupported_spec (probe : SpawnSyncReturns)
    (repoInfo : Except Unit GitRepoInfo) (s : GitState) :
    (truthyStr (getGitPath probe s).1 = false →
      (detectIfGitIsSupported probe repoInfo s).1 = false) ∧
    (repoInfo = Except.error () →
      (detectIfGitIsSupported probe repoInfo s).1 = false) ∧
    ((detectIfGitIsSupported probe repoInfo s).1 = true ↔
      truthyStr (getGitPath probe s).1 = true ∧
      ∃ info, repoInfo = Except.ok info ∧ info.sha ≠ "") := by
  by_cases hp : truthyStr (getGitPath probe s).1
  · cases repoInfo with
    | ok info =>
      by_cases hsha : info.sha = "" <;>
        simp [detectIfGitIsSupported, hp, hsha]
    | error e =>
      simp [detectIfGitIsSupported, hp]
  · cases repoInfo with
    | ok info => simp_all [detectIfGitIsSupported]
    | error e => simp_all [detectIfGitIsSupported]

/-- Claim C6 witness: the specification evaluated at a successful probe
and a repository whose sha is non-empty. -/
theorem detectIfGitIsSupported_spec_witness :
    (detectIfGitIsSupported ⟨0, "/usr/bin/git"⟩
      (Except.ok ⟨"0123abcd"⟩) GitState.initial).1 = true :=
  (detectIfGitIsSupported_spec ⟨0, "/usr/bin/git"⟩
    (Except.ok ⟨"0123abcd"⟩) GitState.initial).2.2.mpr
    ⟨by decide, ⟨"0123abcd"⟩, rfl, by decide⟩

/-- Claim C7: getGitEmail either returns the trimmed output of
git config user.email or throws AlreadyReportedError after printing,
and it throws exactly when git is absent from the path (falsy git
path), or the git command fails with an error, or the trimmed email
string is empty; it never returns in any of those three cases. -/
theorem getGitEmail_spec (env : GitEmailEnv) (s : GitState) :
    (∀ e, (getGitEmail env s).1 = GitEmailOutcome.returned e →
      ∃ out, env.execGitConfig = Except.ok out ∧ e = jsTrim out) ∧
    ((getGitEmail env s).1 = GitEmailOutcome.alreadyReported ↔
      truthyStr (getGitPath env.probe s).1 = false ∨
      (∃ msg, env.execGitConfig = Except.error msg) ∨
      (∃ out, env.execGitConfig = Except.ok out ∧ jsTrim out = "")) := by
  by_cases hp : truthyStr (getGitPath env.probe s).1
  · cases hc : env.execGitConfig with
    | ok out =>
      have hr : (tryGetGitEmail env s).1 = ⟨none, some (jsTrim out)⟩ := by
        simp [tryGetGitEmail, hp, hc]
      by_cases ht : jsTrim out = ""
      · simp [getGitEmail, hr, hp, hc, ht, truthyStr_some]
      · simp [getGitEmail, hr, hp, hc, ht, truthyStr_some]
    | error msg =>
      have hr : (tryGetGitEmail env s).1 = ⟨some msg, none⟩ := by
        simp [tryGetGitEmail, hp, hc]
      simp [getGitEmail, hr, hp, hc]
  · have hr : (tryGetGitEmail env s).1 =
        ⟨some "Git is not present on the path", none⟩ := by
      simp only [Bool.not_eq_true] at hp
      simp [tryGetGitEmail, hp]
    simp only [Bool.not_eq_true] at hp
    simp [getGitEmail, hr, hp]

/-- Claim C7 witness: the specification evaluated where the command
succeeds with padded output, yielding the trimmed email. -/
theorem getGitEmail_spec_witness :
    ∃ out, (Except.ok " bob@example.com " : Except String String) =
      Except.ok out ∧ "bob@example.com" = jsTrim out :=
  (getGitEmail_spec ⟨⟨0, "/usr/bin/git"⟩, Except.ok " bob@example.com "⟩
    GitState.initial).1 "bob@example.com" (by decide)

/-- Claim C9: tryGetGitEmail populates exactly one of its two fields:
the error field (git absent from the path, or the command threw) or
the result field (the trimmed command output) — never both and never
neither. -/
theorem tryGetGitEmail_exactly_one_field (env : GitEmailEnv)
    (s : GitState) :
    ((∃ e, (tryGetGitEmail env s).1.error = some e) ∧
      (tryGetGitEmail env s).1.result = none ∧
      (truthyStr (getGitPath env.probe s).1 = false ∨
        ∃ msg, env.execGitConfig = Except.error msg)) ∨
    ((tryGetGitEmail env s).1.error = none ∧
      ∃ out, env.execGitConfig = Except.ok out ∧
        (tryGetGitEmail env s).1.result = some (jsTrim out)) := by
  by_cases hp : truthyStr (getGitPath env.probe s).1
  · cases hc : env.execGitConfig with
    | ok out => exact Or.inr (by simp [tryGetGitEmail, hp, hc])
    | error msg => exact Or.inl (by simp [tryGetGitEmail, hp, hc])
  · simp only [Bool.not_eq_true] at hp
    exact Or.inl (by simp [tryGetGitEmail, hp])

/-- Claim C10: detectIfGitIsSupported answers true only when the git
path lookup produced a non-empty string; in particular when the probe
exits with status 0 but empty stdout (starting from the undefined
cache), getGitPath returns the cached empty string and
detectIfGitIsSupported returns false without consulting the repository
info. -/
theorem detectIfGitIsSupported_requires_nonempty_path
    (probe : SpawnSyncReturns) (repoInfo : Except Unit GitRepoInfo)
    (s : GitState) :
    ((detectIfGitIsSupported probe repoInfo s).1 = true →
      ∃ p, (getGitPath probe s).1 = some p ∧ p ≠ "") ∧
    (s.hasGit = none → probe.status = 0 → probe.stdout = "" →
      (getGitPath probe s).1 = some "" ∧
      (detectIfGitIsSupported probe repoInfo s).1 = false ∧
      (detectIfGitIsSupported probe repoInfo s).2.2 = false) := by
  constructor
  · intro htrue
    cases hg : (getGitPath probe s).1 with
    | none =>
      exfalso
      simp [detectIfGitIsSupported, hg, truthyStr] at htrue
    | some p =>
      refine ⟨p, rfl, ?_⟩
      intro hp
      simp [detectIfGitIsSupported, hg, hp, truthyStr] at htrue
  · intro hs h0 hout
    have hg : (getGitPath probe s).1 = some "" := by
      simp [getGitPath, hs, h0, hout]
    refine ⟨hg, ?_, ?_⟩ <;>
      simp [detectIfGitIsSupported, hg, truthyStr]

/-- Claim C10 witness: the empty-stdout probe evaluated from the
initial state. -/
theorem detectIfGitIsSupported_requires_nonempty_path_witness :
    GitState.initial.hasGit = none ∧
    ((getGitPath ⟨0, ""⟩ GitState.initial).1 = some "" ∧
     (detectIfGitIsSupported ⟨0, ""⟩ (Except.ok ⟨"0123abcd"⟩)
       GitState.initial).1 = false ∧
     (detectIfGitIsSupported ⟨0, ""⟩ (Except.ok ⟨"0123abcd"⟩)
       GitState.initial).2.2 = false) :=
  ⟨rfl,
    (detectIfGitIsSupported_requires_nonempty_path ⟨0, ""⟩
      (Except.ok ⟨"0123abcd"⟩) GitState.initial).2 rfl rfl rfl⟩

/-- Claim C8: for every operation graph and every configured
maxConcurrency > 0, in every state reachable during a run the number of
operations simultaneously in the EXECUTING state never exceeds
maxConcurrency. -/
theorem scheduler_respects_concurrency_limit (g : OperationGraph)
    (maxConcurrency : Nat) (hm : 0 < maxConcurrency) (l : List OpStatus)
    (h : ReachableRunState g maxConcurrency l) :
    countExecuting l ≤ maxConcurrency := by
  induction h with
  | refl =>
    rw [initialRunState, countExecuting_replicate_pending]
    exact Nat.zero_le _
  | tail hsteps hstep ih =>
    exact countExecuting_le_of_step g maxConcurrency _ _ hstep ih

/-- Claim C8 witness: the bound evaluated for a two-operation graph
with concurrency limit 1 after a dispatch step. -/
theorem scheduler_respects_concurrency_limit_witness :
    0 < 1 ∧
    countExecuting ((initialRunState ⟨2, fun _ => []⟩).set 0
      OpStatus.ready) ≤ 1 :=
  ⟨by decide,
    scheduler_respects_concurrency_limit ⟨2, fun _ => []⟩ 1 (by decide) _
      (Relation.ReflTransGen.single
        (SchedStep.markReady (initialRunState ⟨2, fun _ => []⟩) 0
          (by decide) (by intro j hj; cases hj)))⟩

end Rushstack
